import Mathlib

/-!
# network-injector: the OpenStack controller

A shallow embedding of `controllers/openstack.go`: the port lookup
(`getInjectorPort`), the enable and disable sequences (`EnableNetwork`,
`DisableNetwork`), the reconciliation scan (`ScanForTaggedNetworks`) and
`GetDeviceOwner`.

Stateful code is written in state-passing style.  Every call that leaves the
controller (Neutron API, namespace primitive, HAProxy supervisor) is recorded
in a list of `Call`s, and whether it returns an error is decided by a
predicate `fails : Call → Bool` supplied by the environment.  A call that
returns an error changes nothing; a call that succeeds has the effect given by
the functions of the sections on Neutron and on the supervisor.
-/

namespace NetworkInjector

/-! ## Data model -/

/-- The fields of `networks.Network` the controller reads. -/
structure Network where
  ID : String
  Name : String
  TenantID : String
  Tags : List String
deriving DecidableEq, Repr

/-- The fields of `ports.Port` (with the binding and DNS extensions) that the
controller reads or writes. -/
structure Port where
  ID : String
  NetworkID : String
  DeviceOwner : String
  DeviceID : String
  TenantID : String
  Name : String
  HostID : String
  DNSName : String
deriving DecidableEq, Repr

/-- The variables of package `config` read by the controller. -/
structure Config where
  NetworkTag : String
  Hostname : String
  InjectorDNS : String
deriving DecidableEq, Repr

/-- The filter of `ports.ListOpts` built in `getInjectorPort`. -/
structure ListOpts where
  NetworkID : String
  DeviceOwner : String
deriving DecidableEq, Repr

/-- The payload of `dns.PortCreateOptsExt` built in `EnableNetwork`. -/
structure CreateOpts where
  Name : String
  DeviceOwner : String
  DeviceID : String
  NetworkID : String
  TenantID : String
  HostID : String
  DNSName : String
deriving DecidableEq, Repr

/-- The calls that leave the controller: `ports.List`, `ports.Create` and
`ports.Delete` of Neutron; `EnsureNetworkNamespace`, the methods
`EnableNetworkNamespace`, `DisableNetworkNamespace` and `Close` of the handle
it returns, and `DeleteNetworkNamespace`; `addInstance` and `removeInstance`
of the supervisor.  The namespace functions are not among the sources: a call
of them is recorded, and whether it returns an error is left to the
environment. -/
inductive Call where
  | listPorts (opts : ListOpts)
  | createPort (opts : CreateOpts)
  | deletePort (id : String)
  | ensureNs (port : Port)
  | nsEnable (net : String)
  | nsDisable (net : String)
  | nsClose (net : String)
  | deleteNs (net : String)
  | addInstance (net : String)
  | removeInstance (net : String)
deriving DecidableEq, Repr

/-- A Go `error` value: the error returned by an external call, or the error
of the network listing. -/
inductive Err where
  | call (c : Call)
  | listing
deriving DecidableEq, Repr

/-- What the controller can observe and change: the ports known to Neutron
(with the counter from which Neutron draws the next port id and the page size
of its listings, `0` meaning unpaged) and the key set of `haproxy.instances`. -/
structure State where
  ports : List Port
  nextPort : Nat
  pageLimit : Nat
  instances : List String
deriving DecidableEq, Repr

/-- The result of one `EnableNetwork` or `DisableNetwork` call: the returned
error (`none` for `nil`), the state afterwards and the external calls made, in
order. -/
structure Outcome where
  err : Option Err
  state : State
  calls : List Call
deriving DecidableEq, Repr

/-! ## `GetDeviceOwner` -/

/-- `fmt.Sprintf("network:%s-injector", config.NetworkTag)`. -/
def GetDeviceOwner (cfg : Config) : String :=
  "network:" ++ cfg.NetworkTag ++ "-injector"

/-! ## Neutron, as seen by the controller -/

/-- Neutron's filter for a port listing: network id and device owner both
equal to the requested ones. -/
def matchesOpts (opts : ListOpts) (p : Port) : Bool :=
  p.NetworkID == opts.NetworkID && p.DeviceOwner == opts.DeviceOwner

/-- Cut a listing into pages of `k` entries; `fuel` bounds the number of
pages. -/
def chunksAux (k : Nat) : Nat → List Port → List (List Port)
  | 0, _ => []
  | _ + 1, [] => []
  | fuel + 1, x :: xs => (x :: xs).take k :: chunksAux k fuel ((x :: xs).drop k)

/-- The non-empty pages in which Neutron delivers a listing. -/
def paginate (limit : Nat) (xs : List Port) : List (List Port) :=
  if limit = 0 then (match xs with | [] => [] | _ :: _ => [xs])
  else chunksAux limit xs.length xs

/-- The pages handed to the callback of `getInjectorPort`. -/
def portPages (s : State) (opts : ListOpts) : List (List Port) :=
  paginate s.pageLimit (s.ports.filter (matchesOpts opts))

/-- The port Neutron stores for a create request. -/
def newPort (s : State) (o : CreateOpts) : Port :=
  { ID := "port-" ++ toString s.nextPort
    NetworkID := o.NetworkID
    DeviceOwner := o.DeviceOwner
    DeviceID := o.DeviceID
    TenantID := o.TenantID
    Name := o.Name
    HostID := o.HostID
    DNSName := o.DNSName }

/-- The state after a successful `ports.Create`. -/
def createPort (s : State) (o : CreateOpts) : State :=
  { s with ports := s.ports ++ [newPort s o], nextPort := s.nextPort + 1 }

/-- The state after a successful `ports.Delete`. -/
def deletePort (s : State) (id : String) : State :=
  { s with ports := s.ports.filter (fun p => p.ID != id) }

/-! ## The HAProxy supervisor -/

/-- Modelled from the spec: `HAProxyController.isRunning` (controllers/haproxy.go
is not among the sources); an instance is recorded as running for the network
when the network id is a key of the instance map. -/
def isRunning (s : State) (net : String) : Bool :=
  s.instances.contains net

/-- Modelled from the spec: the effect of a successful
`HAProxyController.addInstance`; the instance is started and recorded as
running under the network id, at most one instance per network id. -/
def addInstance (s : State) (net : String) : State :=
  { s with instances := if s.instances.contains net then s.instances else s.instances ++ [net] }

/-- Modelled from the spec: the effect of a successful
`HAProxyController.removeInstance`; the instance is stopped and removed from
the running set. -/
def removeInstance (s : State) (net : String) : State :=
  { s with instances := s.instances.filter (fun x => x != net) }

/-! ## `getInjectorPort` -/

/-- The callback of `getInjectorPort` run over the pages of the listing:
`port` is overwritten by the only entry of every page that has exactly one. -/
def getInjectorPortPages (pages : List (List Port)) : Option Port :=
  pages.foldl (fun port portList => if portList.length = 1 then portList.head? else port) none

/-- The lookup `getInjectorPort(networkID)`: result and the call made. -/
def getInjectorPort (cfg : Config) (fails : Call → Bool) (s : State) (networkID : String) :
    Except Err (Option Port) × List Call :=
  let opts : ListOpts := { NetworkID := networkID, DeviceOwner := GetDeviceOwner cfg }
  if fails (.listPorts opts) then (.error (.call (.listPorts opts)), [.listPorts opts])
  else (.ok (getInjectorPortPages (portPages s opts)), [.listPorts opts])

/-! ## `EnableNetwork` -/

/-- The create request of `EnableNetwork`. -/
def createOpts (cfg : Config) (network : Network) : CreateOpts :=
  { Name := cfg.NetworkTag ++ " injection port"
    DeviceOwner := GetDeviceOwner cfg
    DeviceID := "network-injector"
    NetworkID := network.ID
    TenantID := network.TenantID
    HostID := cfg.Hostname
    DNSName := cfg.InjectorDNS }

/-- Lines 115-138 of `EnableNetwork`, once `injectorPort` is known; `cs` are
the calls made so far.  The deferred `ns.Close()` is registered only after
`ns.EnableNetworkNamespace()` has returned without error, and runs on every
return after that point. -/
def enableWithPort (fails : Call → Bool) (injectorPort : Port) (s : State) (cs : List Call) :
    Outcome :=
  let net := injectorPort.NetworkID
  if fails (.ensureNs injectorPort) then
    ⟨some (.call (.ensureNs injectorPort)), s, cs ++ [.ensureNs injectorPort]⟩
  else if isRunning s net then
    ⟨none, s, cs ++ [.ensureNs injectorPort]⟩
  else if fails (.nsEnable net) then
    ⟨some (.call (.nsEnable net)), s, cs ++ [.ensureNs injectorPort, .nsEnable net]⟩
  else if fails (.addInstance net) then
    ⟨some (.call (.addInstance net)), s,
      cs ++ [.ensureNs injectorPort, .nsEnable net, .addInstance net, .nsClose net]⟩
  else if fails (.nsDisable net) then
    ⟨some (.call (.nsDisable net)), addInstance s net,
      cs ++ [.ensureNs injectorPort, .nsEnable net, .addInstance net, .nsDisable net,
        .nsClose net]⟩
  else
    ⟨none, addInstance s net,
      cs ++ [.ensureNs injectorPort, .nsEnable net, .addInstance net, .nsDisable net,
        .nsClose net]⟩

/-- The method `EnableNetwork(network)`. -/
def EnableNetwork (cfg : Config) (fails : Call → Bool) (network : Network) (s : State) :
    Outcome :=
  match getInjectorPort cfg fails s network.ID with
  | (.error e, cs) => ⟨some e, s, cs⟩
  | (.ok (some injectorPort), cs) => enableWithPort fails injectorPort s cs
  | (.ok none, cs) =>
    let port := createOpts cfg network
    if fails (.createPort port) then
      ⟨some (.call (.createPort port)), s, cs ++ [.createPort port]⟩
    else
      enableWithPort fails (newPort s port) (createPort s port) (cs ++ [.createPort port])

/-! ## `DisableNetwork` -/

/-- Lines 154-165 of `DisableNetwork`: destroy the namespace, then delete the
port when one was found. -/
def disableRest (fails : Call → Bool) (network : String) (injectorPort : Option Port)
    (s : State) (cs : List Call) : Outcome :=
  if fails (.deleteNs network) then
    ⟨some (.call (.deleteNs network)), s, cs ++ [.deleteNs network]⟩
  else
    match injectorPort with
    | none => ⟨none, s, cs ++ [.deleteNs network]⟩
    | some p =>
      if fails (.deletePort p.ID) then
        ⟨some (.call (.deletePort p.ID)), s, cs ++ [.deleteNs network, .deletePort p.ID]⟩
      else
        ⟨none, deletePort s p.ID, cs ++ [.deleteNs network, .deletePort p.ID]⟩

/-- The method `DisableNetwork(network)`. -/
def DisableNetwork (cfg : Config) (fails : Call → Bool) (network : String) (s : State) :
    Outcome :=
  match getInjectorPort cfg fails s network with
  | (.error e, cs) => ⟨some e, s, cs⟩
  | (.ok injectorPort, cs) =>
    if isRunning s network then
      if fails (.removeInstance network) then
        ⟨some (.call (.removeInstance network)), s, cs ++ [.removeInstance network]⟩
      else
        disableRest fails network injectorPort (removeInstance s network)
          (cs ++ [.removeInstance network])
    else
      disableRest fails network injectorPort s cs

/-! ## `ScanForTaggedNetworks` -/

/-- The calls of the two controller methods made by a scan. -/
inductive Op where
  | enable (network : Network)
  | disable (id : String)
deriving DecidableEq, Repr

/-- The result of `ScanForTaggedNetworks`. -/
structure ScanOutcome where
  err : Option Err
  state : State
  ops : List Op
  calls : List Call
deriving DecidableEq, Repr

/-- The loop over one page (lines 191-198).  The loop has a single variable
`n`, overwritten by every iteration (the range-loop semantics of Go before
1.22, the language version of this 2022 code), and `&n` is appended once for
every tag equal to the configured one.  The state is the current value of `n`
and the number of pointers appended. -/
def pageLoop (tag : String) (networkList : List Network) : Option Network × Nat :=
  networkList.foldl
    (fun st n => (some n, st.2 + (n.Tags.filter (fun t => t == tag)).length)) (none, 0)

/-- What the pointers appended for one page point to once its loop is over. -/
def collectPage (tag : String) (networkList : List Network) : List Network :=
  match pageLoop tag networkList with
  | (some n, k) => List.replicate k n
  | (none, _) => []

/-- The slice `injectedNetworks`, dereferenced, after all pages. -/
def injectedNetworks (tag : String) (pages : List (List Network)) : List Network :=
  pages.flatMap (collectPage tag)

/-- The loop of lines 205-209: errors are logged, not returned. -/
def enableAll (cfg : Config) (fails : Call → Bool) :
    List Network → State → State × List Op × List Call
  | [], s => (s, [], [])
  | n :: rest, s =>
    let o := EnableNetwork cfg fails n s
    let r := enableAll cfg fails rest o.state
    (r.1, Op.enable n :: r.2.1, o.calls ++ r.2.2)

/-- The loop of lines 212-226 over the keys `running` of the instance map
(Go leaves the order of a map range open; the order of the list is one of
them): a key equal to no id in `injected` is disabled, errors are logged. -/
def disableStale (cfg : Config) (fails : Call → Bool) (injected : List Network) :
    List String → State → State × List Op × List Call
  | [], s => (s, [], [])
  | runningNetwork :: rest, s =>
    if injected.any (fun n => n.ID == runningNetwork) then
      disableStale cfg fails injected rest s
    else
      let o := DisableNetwork cfg fails runningNetwork s
      let r := disableStale cfg fails injected rest o.state
      (r.1, Op.disable runningNetwork :: r.2.1, o.calls ++ r.2.2)

/-- The method `ScanForTaggedNetworks`; `listing` is `none` when `EachPage`
returns an error and otherwise the pages handed to the callback. -/
def ScanForTaggedNetworks (cfg : Config) (fails : Call → Bool)
    (listing : Option (List (List Network))) (s : State) : ScanOutcome :=
  match listing with
  | none => ⟨some .listing, s, [], []⟩
  | some pages =>
    let injected := injectedNetworks cfg.NetworkTag pages
    let e := enableAll cfg fails injected s
    let d := disableStale cfg fails injected e.1.instances e.1
    ⟨none, d.1, e.2.1 ++ d.2.1, e.2.2 ++ d.2.2⟩

/-! ## Concrete data used in the examples -/

/-- The configuration of the spec's scenario: tag `injected`. -/
def cfg0 : Config := { NetworkTag := "injected", Hostname := "host", InjectorDNS := "inj" }

/-- Network `A`, tagged. -/
def netA : Network := { ID := "A", Name := "a", TenantID := "t", Tags := ["injected"] }

/-- Network `B`, tagged. -/
def netB : Network := { ID := "B", Name := "b", TenantID := "t", Tags := ["injected"] }

/-- No port, nothing running, unpaged listings. -/
def s0 : State := { ports := [], nextPort := 0, pageLimit := 0, instances := [] }

/-- No external call fails. -/
def noFaults : Call → Bool := fun _ => false

/-- The injector port of network `A`. -/
def portA : Port :=
  { ID := "pa", NetworkID := "A", DeviceOwner := "network:injected-injector",
    DeviceID := "network-injector", TenantID := "t", Name := "injected injection port",
    HostID := "host", DNSName := "inj" }

/-- A second port carrying the same device owner on network `A`. -/
def portA2 : Port := { portA with ID := "pa2" }

/-- Network `A` has its port and its instance is recorded as running. -/
def sRunA : State := { ports := [portA], nextPort := 1, pageLimit := 0, instances := ["A"] }

/-- Two matching ports on network `A`, listed one per page. -/
def sTwoPorts : State :=
  { ports := [portA, portA2], nextPort := 2, pageLimit := 1, instances := [] }

/-- Only the create request for network `B` fails. -/
def failCreateB : Call → Bool := fun c => decide (c = Call.createPort (createOpts cfg0 netB))

/-- Only the create request for network `A` fails. -/
def failCreateA : Call → Bool := fun c => decide (c = Call.createPort (createOpts cfg0 netA))

/-- The calls of the disable sequence that destroy something. -/
def destructive : Call → Bool
  | .removeInstance _ => true
  | .deleteNs _ => true
  | .deletePort _ => true
  | _ => false

/-- The lookup call of `getInjectorPort` for a network id. -/
def lookupCall (cfg : Config) (networkID : String) : Call :=
  .listPorts { NetworkID := networkID, DeviceOwner := GetDeviceOwner cfg }

/-- The port `getInjectorPort` returns when its listing succeeds. -/
def foundPort (cfg : Config) (s : State) (networkID : String) : Option Port :=
  getInjectorPortPages (portPages s { NetworkID := networkID, DeviceOwner := GetDeviceOwner cfg })

/-- The steps of the disable sequence that apply in a state: stop the instance
when one is recorded as running, destroy the namespace, delete the port when
the lookup found one. -/
def disableSteps (cfg : Config) (s : State) (network : String) : List Call :=
  (if isRunning s network then [Call.removeInstance network] else [])
    ++ [Call.deleteNs network]
    ++ (match foundPort cfg s network with
        | some p => [Call.deletePort p.ID]
        | none => [])

/-- The instance of network `A` is recorded as running and `A` has no port. -/
def sRunNoPort : State := { ports := [], nextPort := 0, pageLimit := 0, instances := ["A"] }

/-- The desired set of a listing: the ids of the listed networks that carry
the tag. -/
def desired (tag : String) (pages : List (List Network)) : List String :=
  (pages.flatten.filter (fun n => n.Tags.contains tag)).map (fun n => n.ID)

/-- Every tagged network of a page is the last entry of its page, so that the
pointers collected for the page point to the network they were taken for. -/
def lastOfPage (tag : String) (pages : List (List Network)) : Prop :=
  ∀ pg ∈ pages, ∀ n ∈ pg, tag ∈ n.Tags → pg.getLast? = some n

instance (tag : String) (pages : List (List Network)) : Decidable (lastOfPage tag pages) := by
  unfold lastOfPage
  infer_instance

/-- The number of ports of a network that carry the device-owner string. -/
def portCount (cfg : Config) (networkID : String) (s : State) : Nat :=
  (s.ports.filter
    (matchesOpts { NetworkID := networkID, DeviceOwner := GetDeviceOwner cfg })).length

/-- One call on a network, with the failures the environment injects into it. -/
inductive Step where
  | enable (fails : Call → Bool)
  | disable (fails : Call → Bool)

/-- The state after one call on `network`. -/
def runStep (cfg : Config) (network : Network) : Step → State → State
  | .enable fails, s => (EnableNetwork cfg fails network s).state
  | .disable fails, s => (DisableNetwork cfg fails network.ID s).state

/-- The state after a sequence of calls on `network`. -/
def runSteps (cfg : Config) (network : Network) (steps : List Step) (s : State) : State :=
  steps.foldl (fun st step => runStep cfg network step st) s

/-- Create requests. -/
def isCreate : Call → Bool
  | .createPort _ => true
  | _ => false

/-- Instance starts. -/
def isStart : Call → Bool
  | .addInstance _ => true
  | _ => false

/-! ## Theorems -/

/-- C4, at the failing input: the instance of network `A` is already running.
`EnableNetwork` acquires the namespace handle and returns `nil` without ever
calling `Close` on it; the same happens when the activation fails. -/
theorem enable_running_leaks_handle :
    (EnableNetwork cfg0 noFaults netA sRunA).calls
        = [lookupCall cfg0 "A", Call.ensureNs portA] ∧
      (EnableNetwork cfg0 noFaults netA sRunA).err = none ∧
      Call.nsClose "A" ∉ (EnableNetwork cfg0 noFaults netA sRunA).calls ∧
      (EnableNetwork cfg0 (fun c => decide (c = Call.nsEnable "A")) netA
          { sRunA with instances := [] }).calls
        = [lookupCall cfg0 "A", Call.ensureNs portA, Call.nsEnable "A"] := by
  decide

/-- C6, at the failing input: two ports of network `A` match the device-owner
filter and the listing delivers them one per page.  `getInjectorPort` returns
the second of them instead of absence. -/
theorem getInjectorPort_returns_one_of_two :
    portPages sTwoPorts { NetworkID := "A", DeviceOwner := GetDeviceOwner cfg0 }
        = [[portA], [portA2]] ∧
      getInjectorPortPages [[portA], [portA2]] = some portA2 ∧
      (getInjectorPort cfg0 noFaults sTwoPorts "A").1 = Except.ok (some portA2) :=
  ⟨by decide, by decide, by rfl⟩

/-- C2, at the failing input: one page lists the tagged networks `A` and `B`
and the instance of `A` is running.  The scan calls `EnableNetwork` twice with
`B`, never with `A`, and then passes `A` to `DisableNetwork`. -/
theorem scan_aliases_loop_variable :
    (ScanForTaggedNetworks cfg0 noFaults (some [[netA, netB]]) sRunA).ops
        = [Op.enable netB, Op.enable netB, Op.disable "A"] ∧
      (ScanForTaggedNetworks cfg0 noFaults (some [[netA, netB]]) sRunA).state.instances
        = ["B"] := by
  decide

/-- C9, at the failing input: one page lists the tagged networks `A` and `B`
and the create request for `B` fails, so `EnableNetwork` returns an error for
`B`.  The scan returns `nil`, but it never calls `EnableNetwork` for the other
listed network `A`. -/
theorem scan_failure_skips_other_network :
    (EnableNetwork cfg0 failCreateB netB s0).err
        = some (Err.call (Call.createPort (createOpts cfg0 netB))) ∧
      (ScanForTaggedNetworks cfg0 failCreateB (some [[netA, netB]]) s0).ops
        = [Op.enable netB, Op.enable netB] ∧
      (ScanForTaggedNetworks cfg0 failCreateB (some [[netA, netB]]) s0).err = none ∧
      Op.enable netA ∉ (ScanForTaggedNetworks cfg0 failCreateB (some [[netA, netB]]) s0).ops := by
  decide

/-- A listing without entries has no pages. -/
theorem paginate_nil (k : Nat) : paginate k [] = [] := by
  unfold paginate
  split_ifs <;> simp [chunksAux]

/-- The pages of a listing hold all its entries, in order: the fuel of
`paginate` never runs out. -/
theorem paginate_flatten (k : Nat) (xs : List Port) : (paginate k xs).flatten = xs := by
  unfold paginate
  split_ifs with h
  · cases xs <;> simp
  · have aux : ∀ (fuel : Nat) (ys : List Port), ys.length ≤ fuel →
        (chunksAux k fuel ys).flatten = ys := by
      intro fuel
      induction fuel with
      | zero =>
        intro ys hys
        have : ys = [] := List.length_eq_zero.1 (Nat.le_zero.1 hys)
        subst this
        rfl
      | succ n ih =>
        intro ys hys
        cases ys with
        | nil => rfl
        | cons y ys =>
          simp only [chunksAux, List.flatten_cons]
          rw [ih]
          · exact List.take_append_drop k (y :: ys)
          · simp only [List.length_drop, List.length_cons] at hys ⊢
            omega
    exact aux xs.length xs (le_refl _)

/-- On a listing delivered as one page, `getInjectorPort` returns the entry of
the page when it is the only one, and absence otherwise. -/
theorem getInjectorPortPages_single (pg : List Port) :
    getInjectorPortPages [pg] = if pg.length = 1 then pg.head? else none := by
  simp [getInjectorPortPages]

/-- A listing with one entry is delivered as one page. -/
theorem paginate_singleton (k : Nat) (p : Port) : paginate k [p] = [[p]] := by
  unfold paginate
  split_ifs with h
  · rfl
  · obtain ⟨j, rfl⟩ := Nat.exists_eq_succ_of_ne_zero h
    simp [chunksAux]

/-- The calls of `enableWithPort` extend the calls made before it by calls of
the namespace primitive and the supervisor only. -/
theorem enableWithPort_calls (fails : Call → Bool) (p : Port) (s : State) (cs : List Call) :
    ∃ tl, (enableWithPort fails p s cs).calls = cs ++ tl ∧
      ∀ c ∈ tl, (∀ o, c ≠ Call.listPorts o) ∧ (∀ o, c ≠ Call.createPort o) := by
  unfold enableWithPort
  simp only []
  split_ifs <;> exact ⟨_, rfl, by simp⟩

/-- The calls of `EnableNetwork` start with the port lookup; no other listing
follows, and a create request is the one built from the target network. -/
theorem EnableNetwork_calls (cfg : Config) (fails : Call → Bool) (network : Network)
    (s : State) :
    ∃ tl, (EnableNetwork cfg fails network s).calls = lookupCall cfg network.ID :: tl ∧
      ∀ c ∈ tl, (∀ o, c ≠ Call.listPorts o) ∧
        (∀ o, c = Call.createPort o → o = createOpts cfg network) := by
  unfold EnableNetwork getInjectorPort lookupCall
  by_cases h1 : fails (Call.listPorts { NetworkID := network.ID, DeviceOwner := GetDeviceOwner cfg })
  · exact ⟨[], by simp [h1]⟩
  · simp only [h1, Bool.false_eq_true, if_false]
    cases h5 : getInjectorPortPages
        (portPages s { NetworkID := network.ID, DeviceOwner := GetDeviceOwner cfg }) with
    | some p =>
      obtain ⟨tl, htl, hc⟩ := enableWithPort_calls fails p s
        [Call.listPorts { NetworkID := network.ID, DeviceOwner := GetDeviceOwner cfg }]
      refine ⟨tl, by simpa using htl, ?_⟩
      intro c hcm
      exact ⟨(hc c hcm).1, fun o ho => absurd ho ((hc c hcm).2 o)⟩
    | none =>
      simp only []
      split_ifs with h2
      · exact ⟨[Call.createPort (createOpts cfg network)], rfl, by simp⟩
      · obtain ⟨tl, htl, hc⟩ := enableWithPort_calls fails (newPort s (createOpts cfg network))
          (createPort s (createOpts cfg network))
          ([Call.listPorts { NetworkID := network.ID, DeviceOwner := GetDeviceOwner cfg }]
            ++ [Call.createPort (createOpts cfg network)])
        refine ⟨Call.createPort (createOpts cfg network) :: tl, by simpa using htl, ?_⟩
        intro c hcm
        rcases List.mem_cons.1 hcm with rfl | hcm
        · simp
        · exact ⟨(hc c hcm).1, fun o ho => absurd ho ((hc c hcm).2 o)⟩

/-- Every page of a paginated listing consists of entries of the listing. -/
theorem chunksAux_mem (k : Nat) (fuel : Nat) : ∀ (xs : List Port) (pg : List Port),
    pg ∈ chunksAux k fuel xs → ∀ p ∈ pg, p ∈ xs := by
  induction fuel with
  | zero => intro xs pg h; simp [chunksAux] at h
  | succ n ih =>
    intro xs pg h p hp
    cases xs with
    | nil => simp [chunksAux] at h
    | cons x xs =>
      simp only [chunksAux, List.mem_cons] at h
      rcases h with rfl | h
      · exact List.mem_of_mem_take hp
      · exact List.mem_of_mem_drop (ih _ _ h p hp)

/-- Every page of a paginated listing consists of entries of the listing. -/
theorem paginate_mem (k : Nat) (xs pg : List Port) (h : pg ∈ paginate k xs) :
    ∀ p ∈ pg, p ∈ xs := by
  unfold paginate at h
  split_ifs at h
  · cases xs with
    | nil => simp at h
    | cons x xs =>
      simp only [List.mem_singleton] at h
      subst h
      exact fun p hp => hp
  · exact chunksAux_mem k _ xs pg h

/-- A port returned by the callback is an entry of one of the pages, or the
value the variable had before. -/
theorem foldl_pages_mem (pages : List (List Port)) : ∀ (acc : Option Port) (p : Port),
    pages.foldl (fun port portList => if portList.length = 1 then portList.head? else port) acc
      = some p → acc = some p ∨ ∃ pg ∈ pages, p ∈ pg := by
  induction pages with
  | nil => intro acc p h; exact Or.inl h
  | cons pg rest ih =>
    intro acc p h
    simp only [List.foldl_cons] at h
    rcases ih _ _ h with h1 | ⟨pg2, hpg2, hp⟩
    · split_ifs at h1
      · exact Or.inr ⟨pg, List.mem_cons_self _ _, List.mem_of_mem_head? h1⟩
      · exact Or.inl h1
    · exact Or.inr ⟨pg2, List.mem_cons_of_mem _ hpg2, hp⟩

/-- A port found by the lookup is a port of the state that passes the filter. -/
theorem foundPort_mem (cfg : Config) (s : State) (networkID : String) (p : Port)
    (h : foundPort cfg s networkID = some p) :
    p ∈ s.ports ∧ p.NetworkID = networkID ∧ p.DeviceOwner = GetDeviceOwner cfg := by
  unfold foundPort getInjectorPortPages at h
  rcases foldl_pages_mem _ _ _ h with h1 | ⟨pg, hpg, hp⟩
  · cases h1
  · have hm := paginate_mem _ _ _ hpg p hp
    rw [List.mem_filter] at hm
    refine ⟨hm.1, ?_⟩
    simpa [matchesOpts] using hm.2

/-- With at most one matching port the lookup finds a port exactly when one
exists. -/
theorem foundPort_of_count_le_one (cfg : Config) (s : State) (networkID : String)
    (h : portCount cfg networkID s ≤ 1) :
    foundPort cfg s networkID = (s.ports.filter
      (matchesOpts { NetworkID := networkID, DeviceOwner := GetDeviceOwner cfg })).head? := by
  unfold portCount at h
  unfold foundPort portPages
  generalize s.ports.filter
    (matchesOpts { NetworkID := networkID, DeviceOwner := GetDeviceOwner cfg }) = l at h
  match l, h with
  | [], _ => simp [paginate_nil, getInjectorPortPages]
  | [p], _ => simp [paginate_singleton, getInjectorPortPages]
  | _ :: _ :: _, h => simp at h

/-- The tail of `EnableNetwork` changes no port and keeps the page size. -/
theorem enableWithPort_ports (fails : Call → Bool) (p : Port) (s : State) (cs : List Call) :
    (enableWithPort fails p s cs).state.ports = s.ports ∧
      (enableWithPort fails p s cs).state.pageLimit = s.pageLimit := by
  unfold enableWithPort
  simp only []
  split_ifs <;> simp [addInstance]

/-- One `EnableNetwork` call keeps the number of injector ports of its network
at most one, and issues a create request only when there is none. -/
theorem EnableNetwork_portCount (cfg : Config) (fails : Call → Bool) (network : Network)
    (s : State) (h : portCount cfg network.ID s ≤ 1) :
    portCount cfg network.ID (EnableNetwork cfg fails network s).state ≤ 1 ∧
      (∀ o, Call.createPort o ∈ (EnableNetwork cfg fails network s).calls →
        foundPort cfg s network.ID = none ∧ portCount cfg network.ID s = 0) := by
  have hf := foundPort_of_count_le_one cfg s network.ID h
  have key : (EnableNetwork cfg fails network s).state.ports = s.ports ∨
      (foundPort cfg s network.ID = none ∧
        (EnableNetwork cfg fails network s).state.ports
          = s.ports ++ [newPort s (createOpts cfg network)]) := by
    unfold EnableNetwork getInjectorPort foundPort
    by_cases h1 : fails
        (Call.listPorts { NetworkID := network.ID, DeviceOwner := GetDeviceOwner cfg })
    · simp [h1]
    · simp only [h1, Bool.false_eq_true, if_false]
      cases h5 : getInjectorPortPages
          (portPages s { NetworkID := network.ID, DeviceOwner := GetDeviceOwner cfg }) with
      | some p => left; exact (enableWithPort_ports fails p s _).1
      | none =>
        simp only []
        split_ifs with h2
        · left; rfl
        · right; exact ⟨trivial, (enableWithPort_ports fails _ _ _).1⟩
  have hcreate : ∀ o, Call.createPort o ∈ (EnableNetwork cfg fails network s).calls →
      foundPort cfg s network.ID = none := by
    intro o
    unfold EnableNetwork getInjectorPort foundPort
    by_cases h1 : fails
        (Call.listPorts { NetworkID := network.ID, DeviceOwner := GetDeviceOwner cfg })
    · simp [h1]
    · simp only [h1, Bool.false_eq_true, if_false]
      cases h5 : getInjectorPortPages
          (portPages s { NetworkID := network.ID, DeviceOwner := GetDeviceOwner cfg }) with
      | some p =>
        intro ho
        obtain ⟨tl, htl, hc⟩ := enableWithPort_calls fails p s
          [Call.listPorts { NetworkID := network.ID, DeviceOwner := GetDeviceOwner cfg }]
        simp only [] at ho
        rw [htl] at ho
        rcases List.mem_append.1 ho with ho | ho
        · simp at ho
        · exact absurd rfl ((hc _ ho).2 o)
      | none => intro _; trivial
  have hzero : foundPort cfg s network.ID = none → portCount cfg network.ID s = 0 := by
    intro h5
    rw [h5] at hf
    simp [portCount, List.head?_eq_none_iff.1 hf.symm]
  refine ⟨?_, fun o ho => ⟨hcreate o ho, hzero (hcreate o ho)⟩⟩
  rcases key with hk | ⟨h5, hk⟩
  · unfold portCount
    rw [hk]
    exact h
  · have h0 := hzero h5
    unfold portCount at h0 ⊢
    rw [hk, List.filter_append, List.length_append, h0]
    simp [newPort, createOpts, matchesOpts]

/-- One `DisableNetwork` call adds no port. -/
theorem DisableNetwork_ports (cfg : Config) (fails : Call → Bool) (network : String)
    (s : State) :
    (DisableNetwork cfg fails network s).state.ports = s.ports ∨
      ∃ id, (DisableNetwork cfg fails network s).state.ports
        = s.ports.filter (fun p => p.ID != id) := by
  unfold DisableNetwork getInjectorPort
  by_cases h1 : fails (Call.listPorts { NetworkID := network, DeviceOwner := GetDeviceOwner cfg })
  · simp [h1]
  · simp only [h1, Bool.false_eq_true, if_false]
    by_cases h2 : isRunning s network <;> by_cases h3 : fails (Call.removeInstance network) <;>
      by_cases h4 : fails (Call.deleteNs network) <;>
      cases h5 : getInjectorPortPages
        (portPages s { NetworkID := network, DeviceOwner := GetDeviceOwner cfg }) <;>
      simp only [h2, h3, h4, disableRest, if_true, if_false, Bool.false_eq_true]
    all_goals first
      | (left; trivial)
      | (split_ifs <;> first | (left; trivial) | (right; exact ⟨_, rfl⟩))

/-- One `DisableNetwork` call does not raise the number of injector ports. -/
theorem DisableNetwork_portCount (cfg : Config) (fails : Call → Bool) (network : String)
    (id : String) (s : State) :
    portCount cfg id (DisableNetwork cfg fails network s).state ≤ portCount cfg id s := by
  unfold portCount
  rcases DisableNetwork_ports cfg fails network s with h | ⟨d, h⟩
  · rw [h]
  · rw [h, List.filter_comm]
    exact List.length_filter_le _ _

/-- C7: a network that starts with at most one port carrying the device-owner
string has at most one such port after every finite sequence of `EnableNetwork`
and `DisableNetwork` calls on it, whatever calls fail in each of them; and in
the state so reached `EnableNetwork` issues a create request only when the
lookup found no port and the network has no such port. -/
theorem port_uniqueness (cfg : Config) (network : Network) (steps : List Step) (s : State)
    (h : portCount cfg network.ID s ≤ 1) :
    portCount cfg network.ID (runSteps cfg network steps s) ≤ 1 ∧
      ∀ (fails : Call → Bool) (o : CreateOpts),
        Call.createPort o ∈
          (EnableNetwork cfg fails network (runSteps cfg network steps s)).calls →
        foundPort cfg (runSteps cfg network steps s) network.ID = none ∧
          portCount cfg network.ID (runSteps cfg network steps s) = 0 := by
  have inv : ∀ (steps : List Step) (s : State), portCount cfg network.ID s ≤ 1 →
      portCount cfg network.ID (runSteps cfg network steps s) ≤ 1 := by
    intro steps
    induction steps with
    | nil => intro s hs; exact hs
    | cons st rest ih =>
      intro s hs
      unfold runSteps
      simp only [List.foldl_cons]
      apply ih
      cases st with
      | enable f => exact (EnableNetwork_portCount cfg f network s hs).1
      | disable f => exact le_trans (DisableNetwork_portCount cfg f network.ID network.ID s) hs
  exact ⟨inv steps s h, fun fails o ho =>
    (EnableNetwork_portCount cfg fails network _ (inv steps s h)).2 o ho⟩

/-- C7 at the empty state: enable network `A`, disable it, and enable it again
with a failing create request. -/
theorem port_uniqueness_witness :
    portCount cfg0 netA.ID s0 ≤ 1 ∧
      portCount cfg0 netA.ID
        (runSteps cfg0 netA [Step.enable noFaults, Step.disable noFaults,
          Step.enable failCreateA] s0) ≤ 1 :=
  ⟨by decide,
   (port_uniqueness cfg0 netA [Step.enable noFaults, Step.disable noFaults,
      Step.enable failCreateA] s0 (by decide)).1⟩

/-- The exits of `enableWithPort`. -/
theorem enableWithPort_cases (fails : Call → Bool) (p : Port) (s : State) (cs : List Call) :
    (fails (Call.ensureNs p) = true ∧
        enableWithPort fails p s cs
          = ⟨some (Err.call (Call.ensureNs p)), s, cs ++ [Call.ensureNs p]⟩) ∨
      (fails (Call.ensureNs p) = false ∧ isRunning s p.NetworkID = true ∧
        enableWithPort fails p s cs = ⟨none, s, cs ++ [Call.ensureNs p]⟩) ∨
      (fails (Call.ensureNs p) = false ∧ isRunning s p.NetworkID = false ∧
        fails (Call.nsEnable p.NetworkID) = true ∧
        enableWithPort fails p s cs = ⟨some (Err.call (Call.nsEnable p.NetworkID)), s,
          cs ++ [Call.ensureNs p, Call.nsEnable p.NetworkID]⟩) ∨
      (fails (Call.ensureNs p) = false ∧ isRunning s p.NetworkID = false ∧
        fails (Call.nsEnable p.NetworkID) = false ∧
        fails (Call.addInstance p.NetworkID) = true ∧
        enableWithPort fails p s cs = ⟨some (Err.call (Call.addInstance p.NetworkID)), s,
          cs ++ [Call.ensureNs p, Call.nsEnable p.NetworkID, Call.addInstance p.NetworkID,
            Call.nsClose p.NetworkID]⟩) ∨
      (fails (Call.ensureNs p) = false ∧ isRunning s p.NetworkID = false ∧
        fails (Call.nsEnable p.NetworkID) = false ∧
        fails (Call.addInstance p.NetworkID) = false ∧
        enableWithPort fails p s cs =
          ⟨if fails (Call.nsDisable p.NetworkID) then
              some (Err.call (Call.nsDisable p.NetworkID)) else none,
            addInstance s p.NetworkID,
            cs ++ [Call.ensureNs p, Call.nsEnable p.NetworkID, Call.addInstance p.NetworkID,
              Call.nsDisable p.NetworkID, Call.nsClose p.NetworkID]⟩) := by
  unfold enableWithPort
  simp only []
  by_cases h1 : fails (Call.ensureNs p) <;> by_cases h2 : isRunning s p.NetworkID <;>
    by_cases h3 : fails (Call.nsEnable p.NetworkID) <;>
    by_cases h4 : fails (Call.addInstance p.NetworkID) <;>
    by_cases h5 : fails (Call.nsDisable p.NetworkID) <;>
    simp [h1, h2, h3, h4, h5]

/-- The exits of `EnableNetwork` before the namespace is acquired. -/
theorem EnableNetwork_cases (cfg : Config) (fails : Call → Bool) (network : Network)
    (s : State) :
    (fails (lookupCall cfg network.ID) = true ∧
        EnableNetwork cfg fails network s
          = ⟨some (Err.call (lookupCall cfg network.ID)), s, [lookupCall cfg network.ID]⟩) ∨
      (∃ p, fails (lookupCall cfg network.ID) = false ∧
        foundPort cfg s network.ID = some p ∧
        EnableNetwork cfg fails network s
          = enableWithPort fails p s [lookupCall cfg network.ID]) ∨
      (fails (lookupCall cfg network.ID) = false ∧ foundPort cfg s network.ID = none ∧
        fails (Call.createPort (createOpts cfg network)) = true ∧
        EnableNetwork cfg fails network s
          = ⟨some (Err.call (Call.createPort (createOpts cfg network))), s,
              [lookupCall cfg network.ID, Call.createPort (createOpts cfg network)]⟩) ∨
      (fails (lookupCall cfg network.ID) = false ∧ foundPort cfg s network.ID = none ∧
        fails (Call.createPort (createOpts cfg network)) = false ∧
        EnableNetwork cfg fails network s
          = enableWithPort fails (newPort s (createOpts cfg network))
              (createPort s (createOpts cfg network))
              [lookupCall cfg network.ID, Call.createPort (createOpts cfg network)]) := by
  unfold EnableNetwork getInjectorPort foundPort lookupCall
  by_cases h1 : fails (Call.listPorts { NetworkID := network.ID, DeviceOwner := GetDeviceOwner cfg })
  · left
    simp [h1]
  · right
    simp only [h1, Bool.false_eq_true, if_false]
    cases h5 : getInjectorPortPages
        (portPages s { NetworkID := network.ID, DeviceOwner := GetDeviceOwner cfg }) with
    | some p => left; exact ⟨p, by simp⟩
    | none =>
      right
      by_cases h2 : fails (Call.createPort (createOpts cfg network)) <;> simp [h2]

/-- What one `EnableNetwork` call does, by whether an instance is recorded as
running: it issues at most one create request and at most one instance start;
with a running instance it neither activates nor deactivates the namespace,
starts nothing and leaves the instance map as it is. -/
theorem EnableNetwork_summary (cfg : Config) (fails : Call → Bool) (network : Network)
    (s : State) :
    (EnableNetwork cfg fails network s).calls.countP isCreate ≤ 1 ∧
      (EnableNetwork cfg fails network s).calls.countP isStart ≤ 1 ∧
      (∀ p, foundPort cfg s network.ID = some p →
        (EnableNetwork cfg fails network s).calls.countP isCreate = 0 ∧
        (EnableNetwork cfg fails network s).state.ports = s.ports) ∧
      (isRunning s network.ID = true →
        (EnableNetwork cfg fails network s).calls.countP isStart = 0 ∧
        (EnableNetwork cfg fails network s).state.instances = s.instances ∧
        ∀ c ∈ (EnableNetwork cfg fails network s).calls,
          (∀ n, c ≠ Call.nsEnable n) ∧ (∀ n, c ≠ Call.nsDisable n) ∧
            (∀ n, c ≠ Call.addInstance n)) := by
  rcases EnableNetwork_cases cfg fails network s with
    ⟨_, hE⟩ | ⟨p, _, hp, hE⟩ | ⟨_, hp, _, hE⟩ | ⟨_, hp, _, hE⟩
  · rw [hE]
    simp [lookupCall, isCreate, isStart]
  · have hnet := (foundPort_mem cfg s network.ID p hp).2.1
    have hW := enableWithPort_cases fails p s [lookupCall cfg network.ID]
    rw [hnet] at hW
    rcases hW with ⟨hr, hW⟩ | ⟨_, hr, hW⟩ | ⟨_, hr, _, hW⟩ | ⟨_, hr, _, _, hW⟩ | ⟨_, hr, _, _, hW⟩ <;>
      rw [hE, hW] <;>
      simp [hp, hr, lookupCall, isCreate, isStart, List.countP_cons, addInstance]
  · rw [hE]
    simp [hp, lookupCall, isCreate, isStart, List.countP_cons]
  · have hW := enableWithPort_cases fails (newPort s (createOpts cfg network))
      (createPort s (createOpts cfg network))
      [lookupCall cfg network.ID, Call.createPort (createOpts cfg network)]
    have hnet : (newPort s (createOpts cfg network)).NetworkID = network.ID := rfl
    have hrun : isRunning (createPort s (createOpts cfg network)) network.ID
        = isRunning s network.ID := rfl
    rw [hnet, hrun] at hW
    rcases hW with ⟨hr, hW⟩ | ⟨_, hr, hW⟩ | ⟨_, hr, _, hW⟩ | ⟨_, hr, _, _, hW⟩ | ⟨_, hr, _, _, hW⟩ <;>
      rw [hE, hW] <;>
      simp [hp, hr, lookupCall, isCreate, isStart, List.countP_cons, addInstance, createPort]

/-- After a successful start the instance is recorded as running. -/
theorem isRunning_addInstance (s : State) (net : String) :
    isRunning (addInstance s net) net = true := by
  unfold isRunning addInstance
  by_cases h : s.instances.contains net = true
  · simp only [h, if_true]
  · simp only [h, if_false, Bool.false_eq_true]
    simp

/-- After an `EnableNetwork` call whose create request and instance start do
not fail, on a network with at most one injector port: if a create request was
issued the lookup now finds a port, and if an instance start was issued the
instance is now recorded as running. -/
theorem EnableNetwork_after (cfg : Config) (fails : Call → Bool) (network : Network)
    (s : State) (hcount : portCount cfg network.ID s ≤ 1)
    (hc : fails (Call.createPort (createOpts cfg network)) = false)
    (ha : fails (Call.addInstance network.ID) = false) :
    ((EnableNetwork cfg fails network s).calls.countP isCreate = 0 ∨
        ∃ p, foundPort cfg (EnableNetwork cfg fails network s).state network.ID = some p) ∧
      ((EnableNetwork cfg fails network s).calls.countP isStart = 0 ∨
        isRunning (EnableNetwork cfg fails network s).state network.ID = true) := by
  have h1 := (EnableNetwork_portCount cfg fails network s hcount).1
  have hfound := foundPort_of_count_le_one cfg _ network.ID h1
  rcases EnableNetwork_cases cfg fails network s with
    ⟨_, hE⟩ | ⟨p, _, hp, hE⟩ | ⟨_, hp, hf, hE⟩ | ⟨_, hp, _, hE⟩
  · rw [hE]
    simp [lookupCall, isCreate, isStart]
  · have hnet := (foundPort_mem cfg s network.ID p hp).2.1
    have hW := enableWithPort_cases fails p s [lookupCall cfg network.ID]
    rw [hnet] at hW
    rcases hW with ⟨hr, hW⟩ | ⟨_, hr, hW⟩ | ⟨_, hr, _, hW⟩ | ⟨_, hr, _, hf, hW⟩ |
        ⟨_, hr, _, _, hW⟩
    · rw [hE, hW]; simp [lookupCall, isCreate, isStart, List.countP_cons]
    · rw [hE, hW]; simp [lookupCall, isCreate, isStart, List.countP_cons]
    · rw [hE, hW]; simp [lookupCall, isCreate, isStart, List.countP_cons]
    · rw [ha] at hf; cases hf
    · rw [hE, hW]
      refine ⟨Or.inl (by simp [lookupCall, isCreate, List.countP_cons]), Or.inr ?_⟩
      exact isRunning_addInstance s network.ID
  · rw [hc] at hf; cases hf
  · have hmem : newPort s (createOpts cfg network) ∈
        (EnableNetwork cfg fails network s).state.ports.filter
          (matchesOpts { NetworkID := network.ID, DeviceOwner := GetDeviceOwner cfg }) := by
      rw [hE, List.mem_filter, (enableWithPort_ports _ _ _ _).1]
      simp [createPort, newPort, createOpts, matchesOpts]
    have hex : ∃ p, foundPort cfg (EnableNetwork cfg fails network s).state network.ID
        = some p := by
      rw [hfound]
      cases hl : (EnableNetwork cfg fails network s).state.ports.filter
          (matchesOpts { NetworkID := network.ID, DeviceOwner := GetDeviceOwner cfg }) with
      | nil => rw [hl] at hmem; cases hmem
      | cons x xs => exact ⟨x, rfl⟩
    refine ⟨Or.inr hex, ?_⟩
    have hW := enableWithPort_cases fails (newPort s (createOpts cfg network))
      (createPort s (createOpts cfg network))
      [lookupCall cfg network.ID, Call.createPort (createOpts cfg network)]
    have hnet : (newPort s (createOpts cfg network)).NetworkID = network.ID := rfl
    rw [hnet] at hW
    rcases hW with ⟨hr, hW⟩ | ⟨_, hr, hW⟩ | ⟨_, hr, _, hW⟩ | ⟨_, hr, _, hf, hW⟩ |
        ⟨_, hr, _, _, hW⟩
    · rw [hE, hW]; simp [lookupCall, isCreate, isStart, List.countP_cons]
    · rw [hE, hW]; simp [lookupCall, isCreate, isStart, List.countP_cons]
    · rw [hE, hW]; simp [lookupCall, isCreate, isStart, List.countP_cons]
    · rw [ha] at hf; cases hf
    · rw [hE, hW]
      exact Or.inr (isRunning_addInstance _ network.ID)

/-- C3 as stated fails: with the instance of `A` recorded as running and no
port on `A`, `EnableNetwork` creates a port; and two consecutive calls whose
create request fails issue the create request twice. -/
theorem enable_running_creates_port :
    isRunning sRunNoPort netA.ID = true ∧
      Call.createPort (createOpts cfg0 netA) ∈
        (EnableNetwork cfg0 noFaults netA sRunNoPort).calls ∧
      ((EnableNetwork cfg0 failCreateA netA s0).calls ++
        (EnableNetwork cfg0 failCreateA netA
          (EnableNetwork cfg0 failCreateA netA s0).state).calls).countP isCreate = 2 := by
  decide

/-- C3, amended: on a network that starts with at most one injector port, two
consecutive `EnableNetwork` calls, in the first of which the create request
and the instance start do not fail, issue at most one create request and at
most one instance start in total.  When an instance is already recorded as
running, `EnableNetwork` does not activate or deactivate the namespace, starts
no instance and leaves the instance map unchanged; when moreover the lookup
finds the port it creates no port and changes nothing, and it returns no error
when the lookup and the acquisition of the namespace handle succeed. -/
theorem enable_idempotent_amended (cfg : Config) (f1 f2 : Call → Bool) (network : Network)
    (s : State) (hcount : portCount cfg network.ID s ≤ 1)
    (hc : f1 (Call.createPort (createOpts cfg network)) = false)
    (ha : f1 (Call.addInstance network.ID) = false) :
    ((EnableNetwork cfg f1 network s).calls ++
        (EnableNetwork cfg f2 network (EnableNetwork cfg f1 network s).state).calls).countP
          isCreate ≤ 1 ∧
      ((EnableNetwork cfg f1 network s).calls ++
        (EnableNetwork cfg f2 network (EnableNetwork cfg f1 network s).state).calls).countP
          isStart ≤ 1 ∧
      (isRunning s network.ID = true →
        (∀ c ∈ (EnableNetwork cfg f2 network s).calls,
          (∀ n, c ≠ Call.nsEnable n) ∧ (∀ n, c ≠ Call.nsDisable n) ∧
            (∀ n, c ≠ Call.addInstance n)) ∧
        (EnableNetwork cfg f2 network s).state.instances = s.instances ∧
        ∀ p, foundPort cfg s network.ID = some p →
          (∀ o, Call.createPort o ∉ (EnableNetwork cfg f2 network s).calls) ∧
          (EnableNetwork cfg f2 network s).state = s ∧
          (f2 (lookupCall cfg network.ID) = false → f2 (Call.ensureNs p) = false →
            (EnableNetwork cfg f2 network s).err = none)) := by
  have hS1 := EnableNetwork_summary cfg f1 network s
  have hS2 := EnableNetwork_summary cfg f2 network (EnableNetwork cfg f1 network s).state
  have hA := EnableNetwork_after cfg f1 network s hcount hc ha
  refine ⟨?_, ?_, ?_⟩
  · rw [List.countP_append]
    rcases hA.1 with h0 | ⟨p, hp⟩
    · have := hS2.1
      omega
    · have := (hS2.2.2.1 p hp).1
      have := hS1.1
      omega
  · rw [List.countP_append]
    rcases hA.2 with h0 | hr
    · have := hS2.2.1
      omega
    · have := (hS2.2.2.2 hr).1
      have := hS1.2.1
      omega
  · intro hr
    have hS := EnableNetwork_summary cfg f2 network s
    refine ⟨(hS.2.2.2 hr).2.2, (hS.2.2.2 hr).2.1, ?_⟩
    intro p hp
    rcases EnableNetwork_cases cfg f2 network s with
      ⟨hl, hE⟩ | ⟨q, hl, hq, hE⟩ | ⟨_, hq, _, _⟩ | ⟨_, hq, _, _⟩
    · rw [hE]
      simp [lookupCall, hl]
      intro h; rw [lookupCall, h] at hl; cases hl
    · rw [hp] at hq
      cases hq
      have hnet := (foundPort_mem cfg s network.ID p hp).2.1
      have hW := enableWithPort_cases f2 p s [lookupCall cfg network.ID]
      rw [hnet, hr] at hW
      rcases hW with ⟨he, hW⟩ | ⟨he, _, hW⟩ | ⟨_, h, _⟩ | ⟨_, h, _⟩ | ⟨_, h, _⟩
      · rw [hE, hW]
        simp [lookupCall, he]
      · rw [hE, hW]
        simp [lookupCall]
      · cases h
      · cases h
      · cases h
    · rw [hp] at hq; cases hq
    · rw [hp] at hq; cases hq

/-- C3, amended, for network `A` from the empty state with no failing call. -/
theorem enable_idempotent_amended_witness :
    portCount cfg0 netA.ID s0 ≤ 1 ∧
      ((EnableNetwork cfg0 noFaults netA s0).calls ++
        (EnableNetwork cfg0 noFaults netA (EnableNetwork cfg0 noFaults netA s0).state).calls).countP
          isCreate ≤ 1 :=
  ⟨by decide, (enable_idempotent_amended cfg0 noFaults noFaults netA s0 (by decide) rfl rfl).1⟩

/-- The loop over a page ends with `n` holding the last entry, and has
appended a pointer exactly when some entry carries the tag. -/
theorem pageLoop_foldl (tag : String) : ∀ (nl : List Network) (st : Option Network × Nat),
    (nl.foldl (fun st n => (some n, st.2 + (n.Tags.filter (fun t => t == tag)).length)) st).1
        = (nl.getLast? <|> st.1) ∧
      (0 < (nl.foldl
          (fun st n => (some n, st.2 + (n.Tags.filter (fun t => t == tag)).length)) st).2 ↔
        0 < st.2 ∨ ∃ m ∈ nl, tag ∈ m.Tags) := by
  intro nl
  induction nl with
  | nil => intro st; simp
  | cons n rest ih =>
    intro st
    simp only [List.foldl_cons]
    obtain ⟨h1, h2⟩ := ih (some n, st.2 + (n.Tags.filter (fun t => t == tag)).length)
    refine ⟨?_, ?_⟩
    · rw [h1, List.getLast?_cons]
      cases rest.getLast? <;> simp
    · rw [h2]
      have hn : 0 < (n.Tags.filter (fun t => t == tag)).length ↔ tag ∈ n.Tags := by
        rw [List.length_pos]
        simp [List.filter_eq_nil_iff]
      constructor
      · rintro (h | ⟨m, hm, ht⟩)
        · by_cases h0 : 0 < st.2
          · exact Or.inl h0
          · right
            refine ⟨n, List.mem_cons_self _ _, hn.1 ?_⟩
            simp only [] at h
            omega
        · exact Or.inr ⟨m, List.mem_cons_of_mem _ hm, ht⟩
      · rintro (h | ⟨m, hm, ht⟩)
        · left
          simp only []
          omega
        · rcases List.mem_cons.1 hm with rfl | hm
          · left
            have := hn.2 ht
            simp only []
            omega
          · exact Or.inr ⟨m, hm, ht⟩

/-- On a page whose tagged networks are its last entry, the pointers collected
point to the tagged networks of the page. -/
theorem collectPage_mem (tag : String) (pg : List Network)
    (h : ∀ n ∈ pg, tag ∈ n.Tags → pg.getLast? = some n) (n : Network) :
    n ∈ collectPage tag pg ↔ n ∈ pg ∧ tag ∈ n.Tags := by
  obtain ⟨h1, h2⟩ := pageLoop_foldl tag pg (none, 0)
  unfold collectPage pageLoop
  generalize pg.foldl
    (fun st n => (some n, st.2 + (n.Tags.filter (fun t => t == tag)).length)) (none, 0) = r
    at h1 h2
  obtain ⟨a, k⟩ := r
  simp only [Nat.lt_irrefl, false_or] at h2
  simp only [] at h1
  cases a with
  | none =>
    have hnil : pg.getLast? = none := by
      cases hl : pg.getLast? with
      | none => rfl
      | some l => rw [hl] at h1; cases h1
    simp only [List.not_mem_nil, false_iff, not_and]
    intro hn ht
    rw [h n hn ht] at hnil
    cases hnil
  | some l =>
    have hlast : pg.getLast? = some l := by
      cases hl : pg.getLast? with
      | none => rw [hl] at h1; cases h1
      | some l2 => rw [hl] at h1; simpa using h1.symm
    simp only [List.mem_replicate]
    constructor
    · rintro ⟨hk, rfl⟩
      obtain ⟨m, hm, ht⟩ := h2.1 (Nat.pos_of_ne_zero hk)
      have := h m hm ht
      rw [hlast] at this
      cases this
      exact ⟨hm, ht⟩
    · rintro ⟨hn, ht⟩
      have := h n hn ht
      rw [hlast] at this
      cases this
      exact ⟨Nat.pos_iff_ne_zero.1 (h2.2 ⟨n, hn, ht⟩), rfl⟩

/-- With every tagged network last on its page, the ids the scan collects are
the ids of the desired set. -/
theorem injectedNetworks_ids (tag : String) (pages : List (List Network))
    (h : lastOfPage tag pages) (x : String) :
    x ∈ (injectedNetworks tag pages).map (fun n => n.ID) ↔ x ∈ desired tag pages := by
  unfold injectedNetworks desired
  simp only [List.mem_map, List.mem_flatMap, List.mem_filter, List.mem_flatten,
    List.contains, List.elem_eq_mem, decide_eq_true_eq]
  constructor
  · rintro ⟨n, ⟨pg, hpg, hn⟩, rfl⟩
    have := (collectPage_mem tag pg (h pg hpg) n).1 hn
    exact ⟨n, ⟨⟨pg, hpg, this.1⟩, this.2⟩, rfl⟩
  · rintro ⟨n, ⟨⟨pg, hpg, hn⟩, ht⟩, rfl⟩
    exact ⟨n, ⟨pg, hpg, (collectPage_mem tag pg (h pg hpg) n).2 ⟨hn, ht⟩⟩, rfl⟩

/-- The keys of the instance map after a successful start. -/
theorem mem_addInstance (s : State) (net x : String) :
    x ∈ (addInstance s net).instances ↔ x ∈ s.instances ∨ x = net := by
  unfold addInstance
  by_cases h : s.instances.contains net = true
  · simp only [h, if_true]
    constructor
    · exact Or.inl
    · rintro (h1 | rfl)
      · exact h1
      · simpa using h
  · simp only [h, if_false, Bool.false_eq_true]
    simp

/-- When no call fails, `EnableNetwork` leaves its network recorded as running
and changes no other key of the instance map. -/
theorem EnableNetwork_instances (cfg : Config) (fails : Call → Bool)
    (hfail : ∀ c, fails c = false) (network : Network) (s : State) (x : String) :
    x ∈ (EnableNetwork cfg fails network s).state.instances ↔
      x ∈ s.instances ∨ x = network.ID := by
  have hrunmem : isRunning s network.ID = true →
      (x ∈ s.instances ↔ x ∈ s.instances ∨ x = network.ID) := by
    intro hr
    constructor
    · exact Or.inl
    · rintro (h1 | rfl)
      · exact h1
      · simpa [isRunning] using hr
  rcases EnableNetwork_cases cfg fails network s with
    ⟨hl, _⟩ | ⟨p, _, hp, hE⟩ | ⟨_, _, hf, _⟩ | ⟨_, hp, _, hE⟩
  · rw [hfail] at hl; cases hl
  · have hnet := (foundPort_mem cfg s network.ID p hp).2.1
    have hW := enableWithPort_cases fails p s [lookupCall cfg network.ID]
    rw [hnet] at hW
    rcases hW with ⟨hf, _⟩ | ⟨_, hr, hW⟩ | ⟨_, _, hf, _⟩ | ⟨_, _, _, hf, _⟩ | ⟨_, _, _, _, hW⟩
    · rw [hfail] at hf; cases hf
    · rw [hE, hW]; exact hrunmem hr
    · rw [hfail] at hf; cases hf
    · rw [hfail] at hf; cases hf
    · rw [hE, hW]; exact mem_addInstance s network.ID x
  · rw [hfail] at hf; cases hf
  · have hW := enableWithPort_cases fails (newPort s (createOpts cfg network))
      (createPort s (createOpts cfg network))
      [lookupCall cfg network.ID, Call.createPort (createOpts cfg network)]
    have hnet : (newPort s (createOpts cfg network)).NetworkID = network.ID := rfl
    have hrun : isRunning (createPort s (createOpts cfg network)) network.ID
        = isRunning s network.ID := rfl
    rw [hnet, hrun] at hW
    rcases hW with ⟨hf, _⟩ | ⟨_, hr, hW⟩ | ⟨_, _, hf, _⟩ | ⟨_, _, _, hf, _⟩ | ⟨_, _, _, _, hW⟩
    · rw [hfail] at hf; cases hf
    · rw [hE, hW]; exact hrunmem hr
    · rw [hfail] at hf; cases hf
    · rw [hfail] at hf; cases hf
    · rw [hE, hW]; exact mem_addInstance (createPort s (createOpts cfg network)) network.ID x

/-- When no call fails, `DisableNetwork` removes its network from the instance
map and changes no other key. -/
theorem DisableNetwork_instances (cfg : Config) (fails : Call → Bool)
    (hfail : ∀ c, fails c = false) (network : String) (s : State) (x : String) :
    x ∈ (DisableNetwork cfg fails network s).state.instances ↔
      x ∈ s.instances ∧ x ≠ network := by
  unfold DisableNetwork getInjectorPort
  simp only [hfail, Bool.false_eq_true, if_false]
  by_cases h2 : isRunning s network <;>
    cases h5 : getInjectorPortPages
      (portPages s { NetworkID := network, DeviceOwner := GetDeviceOwner cfg }) <;>
    simp only [h2, disableRest, hfail, if_true, if_false, Bool.false_eq_true] <;>
    simp [removeInstance, deletePort]
  all_goals
    intro hx hxn
    subst hxn
    simp [isRunning] at h2
    exact h2 hx

/-- When no call fails, the enable loop leaves exactly the old keys and the
ids of the collected networks in the instance map. -/
theorem enableAll_instances (cfg : Config) (fails : Call → Bool)
    (hfail : ∀ c, fails c = false) (x : String) : ∀ (injected : List Network) (s : State),
    x ∈ (enableAll cfg fails injected s).1.instances ↔
      x ∈ s.instances ∨ x ∈ injected.map (fun n => n.ID) := by
  intro injected
  induction injected with
  | nil => intro s; simp [enableAll]
  | cons n rest ih =>
    intro s
    simp only [enableAll, List.map_cons, List.mem_cons]
    rw [ih, EnableNetwork_instances cfg fails hfail]
    tauto

/-- When no call fails, the disable loop over the keys `running` removes the
keys among them that are the id of no collected network. -/
theorem disableStale_instances (cfg : Config) (fails : Call → Bool)
    (hfail : ∀ c, fails c = false) (injected : List Network) (x : String) :
    ∀ (running : List String) (s : State),
    x ∈ (disableStale cfg fails injected running s).1.instances ↔
      x ∈ s.instances ∧ (x ∈ injected.map (fun n => n.ID) ∨ x ∉ running) := by
  intro running
  induction running with
  | nil => intro s; simp [disableStale]
  | cons r rest ih =>
    intro s
    unfold disableStale
    by_cases hr : injected.any (fun n => n.ID == r) = true
    · simp only [hr, if_true]
      rw [ih]
      have hmem : r ∈ injected.map (fun n => n.ID) := by
        simpa [List.any_eq_true] using hr
      constructor
      · rintro ⟨h1, h2 | h2⟩
        · exact ⟨h1, Or.inl h2⟩
        · by_cases hx : x = r
          · subst hx; exact ⟨h1, Or.inl hmem⟩
          · exact ⟨h1, Or.inr (by simp [hx, h2])⟩
      · rintro ⟨h1, h2 | h2⟩
        · exact ⟨h1, Or.inl h2⟩
        · exact ⟨h1, Or.inr (fun h => h2 (List.mem_cons_of_mem _ h))⟩
    · simp only [hr, if_false, Bool.false_eq_true]
      rw [ih, DisableNetwork_instances cfg fails hfail]
      have hmem : r ∉ injected.map (fun n => n.ID) := by
        simpa [List.any_eq_true] using hr
      constructor
      · rintro ⟨⟨h1, hne⟩, h2 | h2⟩
        · exact ⟨h1, Or.inl h2⟩
        · exact ⟨h1, Or.inr (by simp [hne, h2])⟩
      · rintro ⟨h1, h2 | h2⟩
        · refine ⟨⟨h1, ?_⟩, Or.inl h2⟩
          rintro rfl
          exact hmem h2
        · simp only [List.mem_cons, not_or] at h2
          exact ⟨⟨h1, h2.1⟩, Or.inr h2.2⟩

/-- C1 as stated fails: the listing holds the tagged network `A`, nothing is
running and the create request for `A` fails; after the scan `A` is in the
desired set and not in the running set. -/
theorem scan_not_converged_on_failure :
    ¬ (∀ (cfg : Config) (fails : Call → Bool) (pages : List (List Network)) (s : State)
        (x : String),
        x ∈ (ScanForTaggedNetworks cfg fails (some pages) s).state.instances ↔
          x ∈ desired cfg.NetworkTag pages) := by
  intro h
  have h1 := (h cfg0 failCreateA [[netA]] s0 "A").2 (by decide)
  exact absurd h1 (by decide)

/-- C1, amended: when no external call fails and every tagged network of the
listing is the last entry of its page, the running set after the scan is the
desired set, whatever was running before. -/
theorem scan_converges_amended (cfg : Config) (fails : Call → Bool)
    (pages : List (List Network)) (s : State)
    (hfail : ∀ c, fails c = false) (hpages : lastOfPage cfg.NetworkTag pages) (x : String) :
    x ∈ (ScanForTaggedNetworks cfg fails (some pages) s).state.instances ↔
      x ∈ desired cfg.NetworkTag pages := by
  unfold ScanForTaggedNetworks
  simp only []
  rw [disableStale_instances cfg fails hfail, enableAll_instances cfg fails hfail,
    injectedNetworks_ids cfg.NetworkTag pages hpages]
  tauto

/-- C1, amended, on the spec's scenario with one network per page: from the
empty running set the scan of `A` and `B` leaves `A` and `B` running, and the
following scan of `B` alone leaves `B` running. -/
theorem scan_converges_amended_witness :
    lastOfPage cfg0.NetworkTag [[netA], [netB]] ∧
      (∀ x, x ∈ (ScanForTaggedNetworks cfg0 noFaults (some [[netA], [netB]]) s0).state.instances ↔
        x ∈ desired cfg0.NetworkTag [[netA], [netB]]) ∧
      (ScanForTaggedNetworks cfg0 noFaults (some [[netA], [netB]]) s0).state.instances
        = ["A", "B"] ∧
      (ScanForTaggedNetworks cfg0 noFaults (some [[netB]])
        (ScanForTaggedNetworks cfg0 noFaults (some [[netA], [netB]]) s0).state).state.instances
        = ["B"] :=
  ⟨by decide,
   fun x => scan_converges_amended cfg0 noFaults [[netA], [netB]] s0 (fun _ => rfl)
     (by decide) x,
   by decide, by decide⟩

/-- Whatever fails, `EnableNetwork` keeps the instance map or appends the id
of its network to it. -/
theorem EnableNetwork_instances_any (cfg : Config) (fails : Call → Bool) (network : Network)
    (s : State) :
    (EnableNetwork cfg fails network s).state.instances = s.instances ∨
      (EnableNetwork cfg fails network s).state.instances = s.instances ++ [network.ID] := by
  have hadd : ∀ t : State, t.instances = s.instances →
      (addInstance t network.ID).instances = s.instances ∨
        (addInstance t network.ID).instances = s.instances ++ [network.ID] := by
    intro t ht
    unfold addInstance
    by_cases h : t.instances.contains network.ID = true
    · left; simp only [h, if_true]; exact ht
    · right; simp only [h, if_false, Bool.false_eq_true]; rw [ht]
  rcases EnableNetwork_cases cfg fails network s with
    ⟨_, hE⟩ | ⟨p, _, hp, hE⟩ | ⟨_, _, _, hE⟩ | ⟨_, hp, _, hE⟩
  · left; rw [hE]
  · have hnet := (foundPort_mem cfg s network.ID p hp).2.1
    have hW := enableWithPort_cases fails p s [lookupCall cfg network.ID]
    rw [hnet] at hW
    rcases hW with ⟨_, hW⟩ | ⟨_, _, hW⟩ | ⟨_, _, _, hW⟩ | ⟨_, _, _, _, hW⟩ | ⟨_, _, _, _, hW⟩
    · left; rw [hE, hW]
    · left; rw [hE, hW]
    · left; rw [hE, hW]
    · left; rw [hE, hW]
    · rw [hE, hW]; exact hadd s rfl
  · left; rw [hE]
  · have hW := enableWithPort_cases fails (newPort s (createOpts cfg network))
      (createPort s (createOpts cfg network))
      [lookupCall cfg network.ID, Call.createPort (createOpts cfg network)]
    have hnet : (newPort s (createOpts cfg network)).NetworkID = network.ID := rfl
    rw [hnet] at hW
    rcases hW with ⟨_, hW⟩ | ⟨_, _, hW⟩ | ⟨_, _, _, hW⟩ | ⟨_, _, _, _, hW⟩ | ⟨_, _, _, _, hW⟩
    · left; rw [hE, hW]; rfl
    · left; rw [hE, hW]; rfl
    · left; rw [hE, hW]; rfl
    · left; rw [hE, hW]; rfl
    · rw [hE, hW]; exact hadd _ rfl

/-- The enable loop calls `EnableNetwork` for every collected network, in
order, and only appends ids of collected networks to the instance map. -/
theorem enableAll_ops (cfg : Config) (fails : Call → Bool) :
    ∀ (injected : List Network) (s : State),
    (enableAll cfg fails injected s).2.1 = injected.map Op.enable ∧
      ∃ added, (enableAll cfg fails injected s).1.instances = s.instances ++ added ∧
        ∀ a ∈ added, a ∈ injected.map (fun n => n.ID) := by
  intro injected
  induction injected with
  | nil => intro s; exact ⟨rfl, [], by simp [enableAll]⟩
  | cons n rest ih =>
    intro s
    obtain ⟨h1, added, h2, h3⟩ := ih (EnableNetwork cfg fails n s).state
    refine ⟨by simp [enableAll, h1], ?_⟩
    simp only [enableAll]
    rcases EnableNetwork_instances_any cfg fails n s with h | h
    · refine ⟨added, by rw [h2, h], ?_⟩
      intro a ha
      exact List.mem_cons_of_mem _ (h3 a ha)
    · refine ⟨n.ID :: added, by rw [h2, h]; simp, ?_⟩
      intro a ha
      rcases List.mem_cons.1 ha with rfl | ha
      · exact List.mem_cons_self _ _
      · exact List.mem_cons_of_mem _ (h3 a ha)

/-- The disable loop calls `DisableNetwork` for the keys that are the id of no
collected network, in order, whatever the state and whatever fails. -/
theorem disableStale_ops (cfg : Config) (fails : Call → Bool) (injected : List Network) :
    ∀ (running : List String) (s : State),
    (disableStale cfg fails injected running s).2.1
      = (running.filter (fun r => !injected.any (fun n => n.ID == r))).map Op.disable := by
  intro running
  induction running with
  | nil => intro s; rfl
  | cons r rest ih =>
    intro s
    unfold disableStale
    by_cases hr : injected.any (fun n => n.ID == r) = true
    · simp only [hr, if_true]
      rw [ih]
      simp [List.filter_cons, hr]
    · simp only [hr, if_false, Bool.false_eq_true]
      rw [ih]
      simp [List.filter_cons, hr]

/-- The calls of `EnableNetwork` and `DisableNetwork` made by a scan whose
listing succeeds do not depend on what fails: one `EnableNetwork` for every
collected network, in order, then one `DisableNetwork` for every key of the
instance map at the start of the scan that is the id of no collected network;
and the scan returns no error. -/
theorem scan_ops (cfg : Config) (fails : Call → Bool) (pages : List (List Network))
    (s : State) :
    (ScanForTaggedNetworks cfg fails (some pages) s).ops
        = (injectedNetworks cfg.NetworkTag pages).map Op.enable ++
          (s.instances.filter (fun r =>
            !(injectedNetworks cfg.NetworkTag pages).any (fun n => n.ID == r))).map Op.disable ∧
      (ScanForTaggedNetworks cfg fails (some pages) s).err = none := by
  unfold ScanForTaggedNetworks
  simp only [and_true]
  obtain ⟨h1, added, h2, h3⟩ := enableAll_ops cfg fails (injectedNetworks cfg.NetworkTag pages) s
  rw [h1, disableStale_ops, h2, List.filter_append]
  have : added.filter
      (fun r => !(injectedNetworks cfg.NetworkTag pages).any (fun n => n.ID == r)) = [] := by
    rw [List.filter_eq_nil_iff]
    intro a ha
    have := h3 a ha
    simp only [List.mem_map] at this
    obtain ⟨n, hn, rfl⟩ := this
    have hany : (injectedNetworks cfg.NetworkTag pages).any (fun m => m.ID == n.ID) = true :=
      List.any_eq_true.2 ⟨n, hn, by simp⟩
    simp [hany]
  rw [this]
  simp

/-- C8: the calls of `DisableNetwork` are the port lookup followed by a prefix
of the sequence stop the instance (when one is recorded as running), destroy
the namespace, delete the port (when one was found), in that order; a call
that returns an error is the last call made and its error is the one
`DisableNetwork` returns; without an error the whole sequence is executed. -/
theorem disable_order_and_abort (cfg : Config) (fails : Call → Bool) (network : String)
    (s : State) :
    ∃ steps, (DisableNetwork cfg fails network s).calls = lookupCall cfg network :: steps ∧
      steps <+: disableSteps cfg s network ∧
      (∀ c ∈ (DisableNetwork cfg fails network s).calls, fails c = true →
        (DisableNetwork cfg fails network s).calls.getLast? = some c ∧
        (DisableNetwork cfg fails network s).err = some (Err.call c)) ∧
      (∀ e, (DisableNetwork cfg fails network s).err = some e →
        ∃ c, e = Err.call c ∧ fails c = true ∧
          (DisableNetwork cfg fails network s).calls.getLast? = some c) ∧
      ((DisableNetwork cfg fails network s).err = none →
        steps = disableSteps cfg s network) := by
  unfold DisableNetwork getInjectorPort disableSteps foundPort lookupCall
  by_cases h1 : fails (Call.listPorts { NetworkID := network, DeviceOwner := GetDeviceOwner cfg })
  · refine ⟨[], ?_⟩
    simp [h1, List.nil_prefix]
  · simp only [h1, Bool.false_eq_true, if_false]
    by_cases h2 : isRunning s network <;> by_cases h3 : fails (Call.removeInstance network) <;>
      by_cases h4 : fails (Call.deleteNs network) <;>
      cases h5 : getInjectorPortPages
        (portPages s { NetworkID := network, DeviceOwner := GetDeviceOwner cfg }) <;>
      simp only [h2, h3, h4, disableRest, if_true, if_false, Bool.false_eq_true]
    all_goals first
      | (refine ⟨_, rfl, ?_⟩; simp_all [List.prefix_iff_eq_append])
      | (split_ifs with h6 <;> refine ⟨_, rfl, ?_⟩ <;> simp_all [List.prefix_iff_eq_append])

/-- C5 as stated fails: network `A` has no injector port and no running
instance, yet `DisableNetwork` makes a destructive call, the destruction of
the namespace. -/
theorem disable_absent_destroys_namespace :
    ¬ (∀ (cfg : Config) (fails : Call → Bool) (network : String) (s : State),
        s.ports.filter (matchesOpts { NetworkID := network, DeviceOwner := GetDeviceOwner cfg }) = [] →
        isRunning s network = false →
        (DisableNetwork cfg fails network s).err = none ∧
          ∀ c ∈ (DisableNetwork cfg fails network s).calls, destructive c = false) := by
  intro h
  have h1 := (h cfg0 noFaults "A" s0 (by decide) (by decide)).2 (Call.deleteNs "A") (by decide)
  exact absurd h1 (by decide)

/-- C5, amended: for a network with no injector port and no instance recorded
as running, `DisableNetwork` stops no instance and deletes no port; when the
lookup succeeds it makes exactly one further call, the destruction of the
namespace, and when that succeeds too it returns no error and leaves the state
as it was. -/
theorem disable_absent_amended (cfg : Config) (fails : Call → Bool) (network : String)
    (s : State)
    (hport : s.ports.filter
      (matchesOpts { NetworkID := network, DeviceOwner := GetDeviceOwner cfg }) = [])
    (hrun : isRunning s network = false) :
    (∀ c ∈ (DisableNetwork cfg fails network s).calls,
        (∀ n, c ≠ Call.removeInstance n) ∧ (∀ id, c ≠ Call.deletePort id)) ∧
      (fails (lookupCall cfg network) = false →
        (DisableNetwork cfg fails network s).calls
          = [lookupCall cfg network, Call.deleteNs network]) ∧
      (fails (lookupCall cfg network) = false → fails (Call.deleteNs network) = false →
        (DisableNetwork cfg fails network s).err = none ∧
          (DisableNetwork cfg fails network s).state = s) := by
  unfold DisableNetwork getInjectorPort lookupCall
  by_cases h1 : fails (Call.listPorts { NetworkID := network, DeviceOwner := GetDeviceOwner cfg })
  · simp [h1]
  · by_cases h4 : fails (Call.deleteNs network) <;>
      simp [h1, h4, hrun, hport, portPages, paginate_nil, getInjectorPortPages, disableRest]

/-- C5, amended, at the empty state for network `A`. -/
theorem disable_absent_amended_witness :
    (DisableNetwork cfg0 noFaults "A" s0).calls = [lookupCall cfg0 "A", Call.deleteNs "A"] ∧
      (DisableNetwork cfg0 noFaults "A" s0).err = none :=
  ⟨(disable_absent_amended cfg0 noFaults "A" s0 (by decide) (by decide)).2.1 (by decide),
   ((disable_absent_amended cfg0 noFaults "A" s0 (by decide) (by decide)).2.2
      (by decide) (by decide)).1⟩

/-- C10: `GetDeviceOwner` is `network:` followed by the configured tag and
`-injector`.  The lookup `getInjectorPort` always issues exactly one listing,
filtered on that string and on the requested network id, and it is the first
call of `EnableNetwork`; no other listing is made.  When the lookup succeeds
and finds no port, `EnableNetwork` issues the create request stamped with the
same string and with the network id and tenant id of the target network, and
when that request succeeds the port Neutron stores is in the state and passes
the filter of the lookup.  No other create request is ever issued. -/
theorem device_owner_symmetry (cfg : Config) (fails : Call → Bool) (network : Network)
    (s : State) :
    GetDeviceOwner cfg = "network:" ++ cfg.NetworkTag ++ "-injector" ∧
      GetDeviceOwner cfg0 = "network:injected-injector" ∧
      (∀ id, (getInjectorPort cfg fails s id).2
        = [Call.listPorts { NetworkID := id, DeviceOwner := GetDeviceOwner cfg }]) ∧
      (∃ tl, (EnableNetwork cfg fails network s).calls
        = Call.listPorts { NetworkID := network.ID, DeviceOwner := GetDeviceOwner cfg } :: tl) ∧
      (∀ o, Call.listPorts o ∈ (EnableNetwork cfg fails network s).calls →
        o.DeviceOwner = GetDeviceOwner cfg ∧ o.NetworkID = network.ID) ∧
      (fails (Call.listPorts { NetworkID := network.ID, DeviceOwner := GetDeviceOwner cfg })
          = false →
        foundPort cfg s network.ID = none →
        Call.createPort (createOpts cfg network) ∈ (EnableNetwork cfg fails network s).calls ∧
          (createOpts cfg network).DeviceOwner = GetDeviceOwner cfg ∧
          (createOpts cfg network).NetworkID = network.ID ∧
          (createOpts cfg network).TenantID = network.TenantID ∧
          (fails (Call.createPort (createOpts cfg network)) = false →
            newPort s (createOpts cfg network) ∈ (EnableNetwork cfg fails network s).state.ports)) ∧
      (∀ o, Call.createPort o ∈ (EnableNetwork cfg fails network s).calls →
        o.DeviceOwner = GetDeviceOwner cfg ∧ o.NetworkID = network.ID ∧
          o.TenantID = network.TenantID ∧
          (newPort s o).DeviceOwner = GetDeviceOwner cfg ∧
          (newPort s o).NetworkID = network.ID ∧
          (newPort s o).TenantID = network.TenantID ∧
          matchesOpts { NetworkID := network.ID, DeviceOwner := GetDeviceOwner cfg }
            (newPort s o) = true) := by
  refine ⟨rfl, by decide, ?_, ?_, ?_, ?_, ?_⟩
  · intro id
    unfold getInjectorPort
    simp only []
    split_ifs <;> rfl
  · obtain ⟨tl, htl, _⟩ := EnableNetwork_calls cfg fails network s
    exact ⟨tl, htl⟩
  · intro o ho
    obtain ⟨tl, htl, hc⟩ := EnableNetwork_calls cfg fails network s
    rw [htl] at ho
    rcases List.mem_cons.1 ho with h | h
    · simp only [lookupCall, Call.listPorts.injEq] at h
      subst h
      exact ⟨rfl, rfl⟩
    · exact absurd rfl ((hc _ h).1 o)
  · intro hl hnone
    refine ⟨?_, rfl, rfl, rfl, ?_⟩
    · rcases EnableNetwork_cases cfg fails network s with
        ⟨hl2, _⟩ | ⟨p, _, hp, _⟩ | ⟨_, _, _, hE⟩ | ⟨_, _, _, hE⟩
      · rw [lookupCall, hl] at hl2; cases hl2
      · rw [hnone] at hp; cases hp
      · rw [hE]; simp
      · obtain ⟨tl, htl, _⟩ := enableWithPort_calls fails (newPort s (createOpts cfg network))
          (createPort s (createOpts cfg network))
          [lookupCall cfg network.ID, Call.createPort (createOpts cfg network)]
        rw [hE, htl]
        simp
    · intro hcf
      rcases EnableNetwork_cases cfg fails network s with
        ⟨hl2, _⟩ | ⟨p, _, hp, _⟩ | ⟨_, _, hf, _⟩ | ⟨_, _, _, hE⟩
      · rw [lookupCall, hl] at hl2; cases hl2
      · rw [hnone] at hp; cases hp
      · rw [hcf] at hf; cases hf
      · rw [hE, (enableWithPort_ports _ _ _ _).1]
        simp [createPort]
  · intro o ho
    obtain ⟨tl, htl, hc⟩ := EnableNetwork_calls cfg fails network s
    rw [htl] at ho
    rcases List.mem_cons.1 ho with h | h
    · simp [lookupCall] at h
    · have ho2 := (hc _ h).2 o rfl
      subst ho2
      simp [createOpts, newPort, matchesOpts]

/-- C10 for network `A` at the empty state with no failing call: the lookup
finds nothing and the create request stamped with `network:injected-injector`
is issued, and the stored port is in the state. -/
theorem device_owner_symmetry_witness :
    Call.createPort (createOpts cfg0 netA) ∈ (EnableNetwork cfg0 noFaults netA s0).calls ∧
      (createOpts cfg0 netA).DeviceOwner = "network:injected-injector" ∧
      newPort s0 (createOpts cfg0 netA) ∈ (EnableNetwork cfg0 noFaults netA s0).state.ports :=
  ⟨((device_owner_symmetry cfg0 noFaults netA s0).2.2.2.2.2.1 rfl (by decide)).1,
   by decide,
   ((device_owner_symmetry cfg0 noFaults netA s0).2.2.2.2.2.1 rfl (by decide)).2.2.2.2 rfl⟩

end NetworkInjector
